import Mathlib

/-!
Shallow embedding of `src/minivenmo.py`.

Python objects live on a heap; we model the heap explicitly: a `MiniVenmo`
state holds the list of `User` objects (in creation order, as the source's
`MiniVenmo.users` registry) and the list of `CreditCard` objects ever
constructed.  Object references become indices into these lists, so Python's
identity equality (`==` on objects without `__eq__`) becomes index equality.
Numeric balances/amounts are modelled as `ℚ`.
-/

structure CreditCard where
  balance : ℚ
deriving DecidableEq

instance : Inhabited CreditCard := ⟨⟨0⟩⟩

structure User where
  name : String
  balance : ℚ
  credit_card : Option Nat
  friends : List Nat
  activity_log : List String
deriving DecidableEq

instance : Inhabited User := ⟨⟨"", 0, none, [], []⟩⟩

structure MiniVenmo where
  users : List User
  cards : List CreditCard
deriving DecidableEq

/-- The user object referenced by index `i` (reads off the heap). -/
def MiniVenmo.user (s : MiniVenmo) (i : Nat) : User := s.users.getD i default

/-- The credit-card object referenced by index `c`. -/
def MiniVenmo.card (s : MiniVenmo) (c : Nat) : CreditCard := s.cards.getD c default

/-- `CreditCard.charge`: debit `amount` if the balance suffices, else leave the
balance unchanged; success is reported as a boolean. -/
def CreditCard.charge (c : CreditCard) (amount : ℚ) : Bool × CreditCard :=
  if c.balance ≥ amount then (true, { balance := c.balance - amount })
  else (false, c)

/-- Model of Python's `f"{amount:.2f}"`: render a rational with exactly two
decimal digits (rounding to the nearest cent; `Int.fdiv` by the denominator
is floor division, so this is the floor of `q * 100 + 1/2`). -/
def fmt2 (q : ℚ) : String :=
  let r : ℚ := q * 100 + 1 / 2
  let c : Int := r.num.fdiv r.den
  let n : Nat := c.natAbs
  (if c < 0 then "-" else "")
    ++ toString (n / 100) ++ "."
    ++ (if n % 100 < 10 then "0" else "") ++ toString (n % 100)

/-- `MiniVenmo.create_user`: construct a fresh user and append it to the
registry; returns (the reference to) the new user. -/
def create_user (s : MiniVenmo) (name : String) (balance : ℚ) : Nat × MiniVenmo :=
  (s.users.length, { s with users := s.users ++ [⟨name, balance, none, [], []⟩] })

/-- Construction of a `CreditCard` object (Python `CreditCard(balance)`);
returns the reference to the new card. -/
def new_credit_card (s : MiniVenmo) (balance : ℚ) : Nat × MiniVenmo :=
  (s.cards.length, { s with cards := s.cards ++ [⟨balance⟩] })

/-- `User.assign_credit_card`: unconditionally set user `i`'s card reference. -/
def assign_credit_card (s : MiniVenmo) (i c : Nat) : MiniVenmo :=
  { s with users := s.users.set i { s.user i with credit_card := some c } }

/-- `User.add_friend` for user `i` adding user `j`.  Fails on self or on an
existing friendship; otherwise updates both friend lists symmetrically and
appends one log entry to each side. -/
def add_friend (s : MiniVenmo) (i j : Nat) : Bool × MiniVenmo :=
  if j = i then (false, s)
  else if j ∈ (s.user i).friends then (false, s)
  else
    let ui := s.user i
    let uj := s.user j
    let ui' := { ui with
      friends := ui.friends ++ [j]
      activity_log := ui.activity_log
        ++ [ui.name ++ " and " ++ uj.name ++ " are now friends"] }
    let uj' := { uj with
      friends := uj.friends ++ [i]
      activity_log := uj.activity_log
        ++ [uj.name ++ " and " ++ ui.name ++ " are now friends"] }
    (true, { s with users := (s.users.set i ui').set j uj' })

/-- `User.pay` for user `i` paying user `j`: self and non-positive amounts
fail; then the cash path if `i`'s balance covers the amount; then the
credit-card path (`self.credit_card and self.credit_card.balance >= amount`,
debited by direct balance subtraction); else failure. -/
def pay (s : MiniVenmo) (i j : Nat) (amount : ℚ) (d : String) : Bool × MiniVenmo :=
  if j = i then (false, s)
  else if amount ≤ 0 then (false, s)
  else
    let ui := s.user i
    let uj := s.user j
    if ui.balance ≥ amount then
      let msg := ui.name ++ " paid " ++ uj.name ++ " $" ++ fmt2 amount ++ " for " ++ d
      let ui' := { ui with
        balance := ui.balance - amount
        activity_log := ui.activity_log ++ [msg] }
      let uj' := { uj with
        balance := uj.balance + amount
        activity_log := uj.activity_log ++ [msg] }
      (true, { s with users := (s.users.set i ui').set j uj' })
    else
      match ui.credit_card with
      | some c =>
        if (s.card c).balance ≥ amount then
          let selfMsg := "Paid " ++ uj.name ++ " $" ++ fmt2 amount ++ " for " ++ d
            ++ " (credit card)"
          let otherMsg := ui.name ++ " paid " ++ uj.name ++ " $" ++ fmt2 amount
            ++ " for " ++ d
          let ui' := { ui with activity_log := ui.activity_log ++ [selfMsg] }
          let uj' := { uj with
            balance := uj.balance + amount
            activity_log := uj.activity_log ++ [otherMsg] }
          (true, { s with
            users := (s.users.set i ui').set j uj'
            cards := s.cards.set c { balance := (s.card c).balance - amount } })
        else (false, s)
      | none => (false, s)

/-- `User.retrieve_activity`: the activity log of user `i`, in order. -/
def retrieve_activity (s : MiniVenmo) (i : Nat) : List String :=
  (s.user i).activity_log

/-- `MiniVenmo.render_feed`: fold over users in creation order, over each log
in order, appending an entry only if it is not already in the feed. -/
def render_feed (s : MiniVenmo) : List String :=
  s.users.foldl
    (fun feed u => u.activity_log.foldl
      (fun feed e => if e ∈ feed then feed else feed ++ [e]) feed) []

/-- Spec-side description of the feed: first-occurrence-wins deduplication of
a flat list of entries (used to compare `render_feed` against the spec's
"concatenate all logs, keep first occurrences" description). -/
def feedOfLogs (entries : List String) : List String :=
  entries.foldl (fun feed e => if e ∈ feed then feed else feed ++ [e]) []

/-- The friends relation of a state: symmetric, irreflexive, duplicate-free
(and bounded by the registry, which the other three need for induction).
Indices at or beyond `users.length` denote no account; their `user` read is
the default user with an empty friend list, so the conditions are vacuous
there. -/
def FriendsOk (s : MiniVenmo) : Prop :=
  (∀ i k, k ∈ (s.user i).friends → k < s.users.length)
  ∧ (∀ i, i ∉ (s.user i).friends)
  ∧ (∀ i j, j ∈ (s.user i).friends ↔ i ∈ (s.user j).friends)
  ∧ (∀ i, (s.user i).friends.Nodup)

/-- States reachable from a fresh `MiniVenmo()` by the public operations.
`retrieve_activity` and `render_feed` are read-only, so they are omitted;
credit-card construction is included since `assign_credit_card` takes an
existing card object. -/
inductive Reachable : MiniVenmo → Prop where
  | init : Reachable ⟨[], []⟩
  | create (s : MiniVenmo) (name : String) (balance : ℚ) :
      Reachable s → Reachable (create_user s name balance).2
  | newCard (s : MiniVenmo) (balance : ℚ) :
      Reachable s → Reachable (new_credit_card s balance).2
  | assign (s : MiniVenmo) (i c : Nat) : Reachable s →
      i < s.users.length → c < s.cards.length →
      Reachable (assign_credit_card s i c)
  | friend (s : MiniVenmo) (i j : Nat) : Reachable s →
      i < s.users.length → j < s.users.length →
      Reachable (add_friend s i j).2
  | payment (s : MiniVenmo) (i j : Nat) (amount : ℚ) (d : String) : Reachable s →
      i < s.users.length → j < s.users.length →
      Reachable (pay s i j amount d).2

/-- Concrete two-user state: Alice with balance 100, Bob with balance 50. -/
def sAB : MiniVenmo :=
  (create_user (create_user ⟨[], []⟩ "Alice" 100).2 "Bob" 50).2

/-- `sAB` with a 200-balance credit card assigned to Alice (user 0). -/
def sABcc : MiniVenmo :=
  assign_credit_card (new_credit_card sAB 200).2 0 0

/-- `sAB` after Alice befriends Bob. -/
def sABfr : MiniVenmo := (add_friend sAB 0 1).2

/-! ### List `getD` / `set` helper lemmas -/

theorem getD_set_self {α : Type _} (l : List α) (i : Nat) (a d : α)
    (h : i < l.length) : (l.set i a).getD i d = a := by
  induction l generalizing i with
  | nil => simp at h
  | cons x xs ih =>
    cases i with
    | zero => rfl
    | succ n => exact ih n (Nat.lt_of_succ_lt_succ h)

theorem getD_set_ne {α : Type _} (l : List α) (i j : Nat) (a d : α)
    (h : j ≠ i) : (l.set i a).getD j d = l.getD j d := by
  induction l generalizing i j with
  | nil => rfl
  | cons x xs ih =>
    cases i with
    | zero =>
      cases j with
      | zero => exact absurd rfl h
      | succ n => rfl
    | succ n =>
      cases j with
      | zero => rfl
      | succ k => exact ih n k (fun hk => h (by rw [hk]))

theorem getD_append_lt {α : Type _} (l t : List α) (i : Nat) (d : α)
    (h : i < l.length) : (l ++ t).getD i d = l.getD i d := by
  induction l generalizing i with
  | nil => simp at h
  | cons x xs ih =>
    cases i with
    | zero => rfl
    | succ n => exact ih n (Nat.lt_of_succ_lt_succ h)

theorem getD_append_len {α : Type _} (l : List α) (a d : α) :
    (l ++ [a]).getD l.length d = a := by
  induction l with
  | nil => rfl
  | cons x xs ih => exact ih

theorem getD_of_le {α : Type _} (l : List α) (i : Nat) (d : α)
    (h : l.length ≤ i) : l.getD i d = d := by
  induction l generalizing i with
  | nil => cases i <;> rfl
  | cons x xs ih =>
    cases i with
    | zero => simp at h
    | succ n => exact ih n (Nat.le_of_succ_le_succ h)

/-- C1: a cash-path payment (distinct accounts, positive amount covered by the
payer's balance) succeeds, moves exactly `m` from payer to recipient (so the
two balances' total is conserved), leaves the payer's credit-card reference
and every credit-card balance unchanged, and appends the identical entry
`"<A> paid <B> $<m, two decimals> for <d>"` to both activity logs. -/
theorem pay_cash_path (s : MiniVenmo) (i j : Nat) (m : ℚ) (d : String)
    (hi : i < s.users.length) (hj : j < s.users.length) (hij : i ≠ j)
    (hm : 0 < m) (hbal : (s.user i).balance ≥ m) :
    (pay s i j m d).1 = true
    ∧ ((pay s i j m d).2.user i).balance = (s.user i).balance - m
    ∧ ((pay s i j m d).2.user j).balance = (s.user j).balance + m
    ∧ ((pay s i j m d).2.user i).balance + ((pay s i j m d).2.user j).balance
        = (s.user i).balance + (s.user j).balance
    ∧ ((pay s i j m d).2.user i).credit_card = (s.user i).credit_card
    ∧ (pay s i j m d).2.cards = s.cards
    ∧ ((pay s i j m d).2.user i).activity_log = (s.user i).activity_log
        ++ [(s.user i).name ++ " paid " ++ (s.user j).name ++ " $" ++ fmt2 m
            ++ " for " ++ d]
    ∧ ((pay s i j m d).2.user j).activity_log = (s.user j).activity_log
        ++ [(s.user i).name ++ " paid " ++ (s.user j).name ++ " $" ++ fmt2 m
            ++ " for " ++ d] := by
  have h1 : ¬ (j = i) := fun h => hij h.symm
  have h2 : ¬ (m ≤ 0) := not_le.mpr hm
  have hgi : ∀ x y : User, ((s.users.set i x).set j y).getD i default = x := fun x y => by
    rw [getD_set_ne _ j i _ _ hij, getD_set_self _ _ _ _ hi]
  have hgj : ∀ x y : User, ((s.users.set i x).set j y).getD j default = y := fun x y =>
    getD_set_self _ _ _ _ (by rw [List.length_set]; exact hj)
  simp only [MiniVenmo.user] at hbal
  simp only [pay, if_neg h1, if_neg h2, MiniVenmo.user, if_pos hbal, hgi, hgj]
  refine ⟨trivial, trivial, trivial, ?_, trivial, trivial, trivial, trivial⟩
  ring

/-- Witness for C1: Alice (balance 100) pays Bob 25 on the cash path. -/
theorem pay_cash_path_witness :
    0 < sAB.users.length ∧ 1 < sAB.users.length ∧ (0 : Nat) ≠ 1
    ∧ (0 : ℚ) < 25 ∧ (sAB.user 0).balance ≥ 25
    ∧ (pay sAB 0 1 25 "lunch").1 = true :=
  ⟨by decide, by decide, by decide, by norm_num,
    by show (100 : ℚ) ≥ 25; norm_num,
    (pay_cash_path sAB 0 1 25 "lunch" (by decide) (by decide) (by decide)
      (by norm_num) (by show (100 : ℚ) ≥ 25; norm_num)).1⟩

/-- Helper: full postcondition of the credit-card branch of `pay`, shared by
the credit-path and look-then-act theorems. -/
theorem pay_credit_aux (s : MiniVenmo) (i j c : Nat) (m : ℚ) (d : String)
    (hi : i < s.users.length) (hj : j < s.users.length) (hij : i ≠ j)
    (hm : 0 < m) (hlt : (s.user i).balance < m)
    (hcc : (s.user i).credit_card = some c) (hc : c < s.cards.length)
    (hcb : (s.card c).balance ≥ m) :
    (pay s i j m d).1 = true
    ∧ ((pay s i j m d).2.user i).balance = (s.user i).balance
    ∧ ((pay s i j m d).2.card c).balance = (s.card c).balance - m
    ∧ ((pay s i j m d).2.user j).balance = (s.user j).balance + m
    ∧ ((pay s i j m d).2.user i).activity_log = (s.user i).activity_log
        ++ ["Paid " ++ (s.user j).name ++ " $" ++ fmt2 m ++ " for " ++ d
            ++ " (credit card)"]
    ∧ ((pay s i j m d).2.user j).activity_log = (s.user j).activity_log
        ++ [(s.user i).name ++ " paid " ++ (s.user j).name ++ " $" ++ fmt2 m
            ++ " for " ++ d] := by
  have h1 : ¬ (j = i) := fun h => hij h.symm
  have h2 : ¬ (m ≤ 0) := not_le.mpr hm
  have h3 : ¬ ((s.user i).balance ≥ m) := not_le.mpr hlt
  have hgi : ∀ x y : User, ((s.users.set i x).set j y).getD i default = x := fun x y => by
    rw [getD_set_ne _ j i _ _ hij, getD_set_self _ _ _ _ hi]
  have hgj : ∀ x y : User, ((s.users.set i x).set j y).getD j default = y := fun x y =>
    getD_set_self _ _ _ _ (by rw [List.length_set]; exact hj)
  have hgc : ∀ x : CreditCard, (s.cards.set c x).getD c default = x := fun x =>
    getD_set_self _ _ _ _ hc
  simp only [MiniVenmo.user] at h3 hcc
  simp only [MiniVenmo.card] at hcb
  simp only [pay, if_neg h1, if_neg h2, MiniVenmo.user, MiniVenmo.card, if_neg h3,
    hcc, if_pos hcb, hgi, hgj, hgc]
  exact ⟨trivial, trivial, trivial, trivial, trivial, trivial⟩

/-- C2: a credit-card-path payment (distinct accounts, positive amount, cash
balance short, a card assigned whose balance covers the amount) succeeds,
leaves the payer's cash balance unchanged, debits the card by exactly `m`,
credits the recipient by exactly `m`, appends
`"Paid <B> $<m, two decimals> for <d> (credit card)"` (no payer name) to the
payer's log and `"<A> paid <B> $<m, two decimals> for <d>"` to the
recipient's log. -/
theorem pay_credit_path (s : MiniVenmo) (i j c : Nat) (m : ℚ) (d : String)
    (hi : i < s.users.length) (hj : j < s.users.length) (hij : i ≠ j)
    (hm : 0 < m) (hlt : (s.user i).balance < m)
    (hcc : (s.user i).credit_card = some c) (hc : c < s.cards.length)
    (hcb : (s.card c).balance ≥ m) :
    (pay s i j m d).1 = true
    ∧ ((pay s i j m d).2.user i).balance = (s.user i).balance
    ∧ ((pay s i j m d).2.card c).balance = (s.card c).balance - m
    ∧ ((pay s i j m d).2.user j).balance = (s.user j).balance + m
    ∧ ((pay s i j m d).2.user i).activity_log = (s.user i).activity_log
        ++ ["Paid " ++ (s.user j).name ++ " $" ++ fmt2 m ++ " for " ++ d
            ++ " (credit card)"]
    ∧ ((pay s i j m d).2.user j).activity_log = (s.user j).activity_log
        ++ [(s.user i).name ++ " paid " ++ (s.user j).name ++ " $" ++ fmt2 m
            ++ " for " ++ d] :=
  pay_credit_aux s i j c m d hi hj hij hm hlt hcc hc hcb

/-- Witness for C2: Alice (balance 100, card balance 200) pays Bob 150 via
the credit card. -/
theorem pay_credit_path_witness :
    0 < sABcc.users.length ∧ 1 < sABcc.users.length ∧ (0 : Nat) ≠ 1
    ∧ (0 : ℚ) < 150 ∧ (sABcc.user 0).balance < 150
    ∧ (sABcc.user 0).credit_card = some 0 ∧ 0 < sABcc.cards.length
    ∧ (sABcc.card 0).balance ≥ 150
    ∧ (pay sABcc 0 1 150 "rent").1 = true :=
  ⟨by decide, by decide, by decide, by norm_num,
    by show (100 : ℚ) < 150; norm_num, by decide, by decide,
    by show (200 : ℚ) ≥ 150; norm_num,
    (pay_credit_path sABcc 0 1 0 150 "rent" (by decide) (by decide) (by decide)
      (by norm_num) (by show (100 : ℚ) < 150; norm_num) (by decide) (by decide)
      (by show (200 : ℚ) ≥ 150; norm_num)).1⟩

/-- C3: `pay` returns false exactly when the recipient is the payer, the
amount is non-positive, or the cash balance is short and no assigned credit
card covers the amount; and every failing call leaves the whole state (both
balances, all card balances, friend lists, activity logs) unchanged. -/
theorem pay_failure_iff (s : MiniVenmo) (i j : Nat) (m : ℚ) (d : String) :
    ((pay s i j m d).1 = false ↔
      (j = i ∨ m ≤ 0 ∨ ((s.user i).balance < m
        ∧ ∀ c, (s.user i).credit_card = some c → (s.card c).balance < m)))
    ∧ ((pay s i j m d).1 = false → (pay s i j m d).2 = s) := by
  by_cases h1 : j = i
  · simp [pay, h1]
  by_cases h2 : m ≤ 0
  · simp [pay, h1, h2]
  by_cases h3 : (s.user i).balance ≥ m
  · have hnlt : ¬ ((s.user i).balance < m) := not_lt.mpr h3
    simp [pay, h1, h2, h3, hnlt]
  · have hlt : (s.user i).balance < m := not_le.mp h3
    cases hcc : (s.user i).credit_card with
    | none => simp [pay, h1, h2, h3, hcc, hlt]
    | some c =>
      by_cases h4 : (s.card c).balance ≥ m
      · have hn4 : ¬ ((s.card c).balance < m) := not_lt.mpr h4
        simp [pay, h1, h2, h3, hcc, h4, hn4, hlt]
      · have hc4 : (s.card c).balance < m := not_le.mp h4
        simp [pay, h1, h2, h3, hcc, h4, hc4, hlt]

/-- C4: `CreditCard.charge` is all-or-nothing — with sufficient balance it
succeeds and subtracts the amount, otherwise it fails and leaves the balance
exactly as it was — and it never drives a balance negative: a negative
post-charge balance means the balance was already negative. -/
theorem charge_all_or_nothing (c : CreditCard) (a : ℚ) :
    (c.balance ≥ a → c.charge a = (true, ⟨c.balance - a⟩))
    ∧ (¬ (c.balance ≥ a) → c.charge a = (false, c))
    ∧ ((c.charge a).2.balance < 0 → c.balance < 0) := by
  refine ⟨fun h => by simp [CreditCard.charge, h],
    fun h => by simp [CreditCard.charge, h], ?_⟩
  by_cases h : c.balance ≥ a
  · simp only [CreditCard.charge, if_pos h]
    intro h2
    linarith
  · simp [CreditCard.charge, h]

/-- Witness for C4: a card with balance 5 charged 3 yields balance 5 - 3. -/
theorem charge_all_or_nothing_witness :
    (⟨5⟩ : CreditCard).balance ≥ 3
    ∧ CreditCard.charge ⟨5⟩ 3 = (true, ⟨(5 : ℚ) - 3⟩) :=
  ⟨by norm_num, (charge_all_or_nothing ⟨5⟩ 3).1 (by norm_num)⟩

/-- C9: `charge` does not restrict its amount to be positive: any amount
`a ≤ 0` with `balance ≥ a` is accepted, the balance becomes `balance - a`;
charging 0 succeeds and leaves the balance unchanged, and charging a negative
amount succeeds and strictly increases the balance. -/
theorem charge_nonpositive (c : CreditCard) (a : ℚ)
    (ha : a ≤ 0) (hb : c.balance ≥ a) :
    (c.charge a).1 = true ∧ (c.charge a).2.balance = c.balance - a
    ∧ (a = 0 → (c.charge a).2.balance = c.balance)
    ∧ (a < 0 → (c.charge a).2.balance > c.balance) := by
  simp only [CreditCard.charge, if_pos hb]
  refine ⟨trivial, trivial, fun h0 => by rw [h0, sub_zero], fun hneg => ?_⟩
  show c.balance - a > c.balance
  linarith

/-- Witness for C9: a card with balance 5 charged -2 ends with balance
5 - (-2) = 7 > 5. -/
theorem charge_nonpositive_witness :
    (-2 : ℚ) ≤ 0 ∧ (⟨5⟩ : CreditCard).balance ≥ -2
    ∧ (CreditCard.charge ⟨5⟩ (-2)).1 = true
    ∧ (CreditCard.charge ⟨5⟩ (-2)).2.balance = (5 : ℚ) - (-2) :=
  ⟨by norm_num, by norm_num,
    (charge_nonpositive ⟨5⟩ (-2) (by norm_num) (by norm_num)).1,
    (charge_nonpositive ⟨5⟩ (-2) (by norm_num) (by norm_num)).2.1⟩

/-- C8: under the credit-branch guard (cash short, card assigned, card
balance covers the amount) the card's own `charge` cannot fail — it returns
`true` — and the direct balance subtraction `pay` performs leaves the card
with exactly the balance a successful `charge` call would produce. -/
theorem credit_branch_charge_agrees (s : MiniVenmo) (i j c : Nat) (m : ℚ)
    (d : String) (hi : i < s.users.length) (hj : j < s.users.length)
    (hij : i ≠ j) (hm : 0 < m) (hlt : (s.user i).balance < m)
    (hcc : (s.user i).credit_card = some c) (hc : c < s.cards.length)
    (hcb : (s.card c).balance ≥ m) :
    ((s.card c).charge m).1 = true
    ∧ ((pay s i j m d).2.card c).balance = ((s.card c).charge m).2.balance := by
  have hch : (s.card c).charge m = (true, ⟨(s.card c).balance - m⟩) := by
    simp [CreditCard.charge, hcb]
  refine ⟨by rw [hch], ?_⟩
  rw [hch]
  exact (pay_credit_aux s i j c m d hi hj hij hm hlt hcc hc hcb).2.2.1

/-- Witness for C8: the same instance as the C2 witness (Alice's 200-balance
card covering a 150 payment). -/
theorem credit_branch_charge_agrees_witness :
    0 < sABcc.users.length ∧ 1 < sABcc.users.length ∧ (0 : Nat) ≠ 1
    ∧ (0 : ℚ) < 150 ∧ (sABcc.user 0).balance < 150
    ∧ (sABcc.user 0).credit_card = some 0 ∧ 0 < sABcc.cards.length
    ∧ (sABcc.card 0).balance ≥ 150
    ∧ ((sABcc.card 0).charge 150).1 = true :=
  ⟨by decide, by decide, by decide, by norm_num,
    by show (100 : ℚ) < 150; norm_num, by decide, by decide,
    by show (200 : ℚ) ≥ 150; norm_num,
    (credit_branch_charge_agrees sABcc 0 1 0 150 "rent" (by decide) (by decide)
      (by decide) (by norm_num) (by show (100 : ℚ) < 150; norm_num) (by decide)
      (by decide) (by show (200 : ℚ) ≥ 150; norm_num)).1⟩

/-- C5: `add_friend` fails with no side effect when the other account is the
same account or already a friend; otherwise it succeeds, adds each account to
the other's friend list, appends exactly one friendship entry to each log
(worded from each account's own perspective), and touches no balance or
credit card. -/
theorem add_friend_spec (s : MiniVenmo) (i j : Nat)
    (hi : i < s.users.length) (hj : j < s.users.length) :
    ((j = i ∨ j ∈ (s.user i).friends) → add_friend s i j = (false, s))
    ∧ (j ≠ i → j ∉ (s.user i).friends →
        (add_friend s i j).1 = true
        ∧ ((add_friend s i j).2.user i).friends = (s.user i).friends ++ [j]
        ∧ ((add_friend s i j).2.user j).friends = (s.user j).friends ++ [i]
        ∧ ((add_friend s i j).2.user i).activity_log = (s.user i).activity_log
            ++ [(s.user i).name ++ " and " ++ (s.user j).name ++ " are now friends"]
        ∧ ((add_friend s i j).2.user j).activity_log = (s.user j).activity_log
            ++ [(s.user j).name ++ " and " ++ (s.user i).name ++ " are now friends"]
        ∧ ((add_friend s i j).2.user i).balance = (s.user i).balance
        ∧ ((add_friend s i j).2.user j).balance = (s.user j).balance
        ∧ ((add_friend s i j).2.user i).credit_card = (s.user i).credit_card
        ∧ ((add_friend s i j).2.user j).credit_card = (s.user j).credit_card
        ∧ (add_friend s i j).2.cards = s.cards) := by
  constructor
  · rintro (h | h)
    · simp [add_friend, h]
    · by_cases h1 : j = i
      · simp [add_friend, h1]
      · simp [add_friend, h1, h]
  · intro h1 h2
    have hij : i ≠ j := fun h => h1 h.symm
    have h1' : ¬ (j = i) := h1
    have hgi : ∀ x y : User, ((s.users.set i x).set j y).getD i default = x :=
      fun x y => by rw [getD_set_ne _ j i _ _ hij, getD_set_self _ _ _ _ hi]
    have hgj : ∀ x y : User, ((s.users.set i x).set j y).getD j default = y :=
      fun x y => getD_set_self _ _ _ _ (by rw [List.length_set]; exact hj)
    simp only [MiniVenmo.user] at h2
    simp only [add_friend, if_neg h1', if_neg h2, MiniVenmo.user, hgi, hgj]
    exact ⟨trivial, trivial, trivial, trivial, trivial, trivial, trivial,
      trivial, trivial, trivial⟩

/-- Witness for C5: in the fresh Alice/Bob state, Alice befriends Bob. -/
theorem add_friend_spec_witness :
    0 < sAB.users.length ∧ 1 < sAB.users.length ∧ (1 : Nat) ≠ 0
    ∧ (1 : Nat) ∉ (sAB.user 0).friends
    ∧ (add_friend sAB 0 1).1 = true :=
  ⟨by decide, by decide, by decide, by decide,
    ((add_friend_spec sAB 0 1 (by decide) (by decide)).2
      (by decide) (by decide)).1⟩

/-- Helper: `add_friend` fails with the state untouched when the target is
already in the caller's friend list. -/
theorem add_friend_fails_of_mem (s : MiniVenmo) (i j : Nat)
    (h1 : ¬ (j = i)) (h2 : j ∈ (s.user i).friends) :
    add_friend s i j = (false, s) := by
  simp [add_friend, h1, h2]

/-- C10: once `A.add_friend(B)` has succeeded, the immediately following
`B.add_friend(A)` returns false and returns the state unchanged, because the
symmetric update already recorded A in B's friend list. -/
theorem add_friend_second_fails (s : MiniVenmo) (i j : Nat)
    (hi : i < s.users.length) (hj : j < s.users.length)
    (h : (add_friend s i j).1 = true) :
    add_friend (add_friend s i j).2 j i = (false, (add_friend s i j).2) := by
  by_cases h1 : j = i
  · simp [add_friend, h1] at h
  by_cases h2 : j ∈ (s.user i).friends
  · have heq : add_friend s i j = (false, s) := add_friend_fails_of_mem s i j h1 h2
    rw [heq] at h
    exact absurd h (by simp)
  · have hgj : ∀ x y : User, ((s.users.set i x).set j y).getD j default = y :=
      fun x y => getD_set_self _ _ _ _ (by rw [List.length_set]; exact hj)
    have hmem : i ∈ ((add_friend s i j).2.user j).friends := by
      simp only [add_friend, if_neg h1, if_neg h2]
      simp only [MiniVenmo.user, hgj]
      exact List.mem_append_right _ (List.mem_singleton_self i)
    have hij : ¬ (i = j) := fun hh => h1 hh.symm
    exact add_friend_fails_of_mem _ j i hij hmem

/-- Witness for C10: after Alice befriends Bob, Bob's symmetric attempt
fails and changes nothing. -/
theorem add_friend_second_fails_witness :
    0 < sAB.users.length ∧ 1 < sAB.users.length
    ∧ (add_friend sAB 0 1).1 = true
    ∧ add_friend (add_friend sAB 0 1).2 1 0 = (false, (add_friend sAB 0 1).2) :=
  ⟨by decide, by decide, by decide,
    add_friend_second_fails sAB 0 1 (by decide) (by decide) (by decide)⟩

/-- Helper: membership in the feed-building fold — an entry is in the result
exactly when it is in the accumulator or in the remaining entries. -/
theorem feed_foldl_mem (l acc : List String) (x : String) :
    x ∈ l.foldl (fun feed e => if e ∈ feed then feed else feed ++ [e]) acc
      ↔ x ∈ acc ∨ x ∈ l := by
  induction l generalizing acc with
  | nil => simp
  | cons e rest ih =>
    simp only [List.foldl_cons]
    rw [ih]
    by_cases he : e ∈ acc
    · rw [if_pos he]
      constructor
      · rintro (h | h)
        · exact Or.inl h
        · exact Or.inr (List.mem_cons_of_mem _ h)
      · rintro (h | h)
        · exact Or.inl h
        · rcases List.mem_cons.mp h with rfl | h2
          · exact Or.inl he
          · exact Or.inr h2
    · rw [if_neg he]
      simp only [List.mem_append, List.mem_singleton, List.mem_cons]
      tauto

/-- Helper: the feed-building fold preserves duplicate-freedom of the
accumulator. -/
theorem feed_foldl_nodup (l acc : List String) (h : acc.Nodup) :
    (l.foldl (fun feed e => if e ∈ feed then feed else feed ++ [e]) acc).Nodup := by
  induction l generalizing acc with
  | nil => exact h
  | cons e rest ih =>
    simp only [List.foldl_cons]
    by_cases he : e ∈ acc
    · rw [if_pos he]
      exact ih _ h
    · rw [if_neg he]
      refine ih _ ?_
      rw [List.nodup_append]
      exact ⟨h, List.nodup_singleton e, by simpa using he⟩

/-- Helper: the nested fold over users then entries equals the flat fold over
the concatenation of all activity logs. -/
theorem feed_foldl_flatten (us : List User) (acc : List String) :
    us.foldl
      (fun feed u => u.activity_log.foldl
        (fun feed e => if e ∈ feed then feed else feed ++ [e]) feed) acc
      = (us.map User.activity_log).flatten.foldl
          (fun feed e => if e ∈ feed then feed else feed ++ [e]) acc := by
  induction us generalizing acc with
  | nil => rfl
  | cons u rest ih =>
    simp only [List.foldl_cons, List.map_cons, List.flatten_cons, List.foldl_append]
    exact ih _

/-- C6: `render_feed` is the first-occurrence-wins deduplication of all
accounts' logs concatenated in creation order (each log in insertion order);
the feed never repeats an exact string (so the two identical cash-path
entries contribute one feed entry, each appearing string exactly once), and
it contains an entry exactly when some log contains it (so the two distinct
credit-card-path entries both appear). -/
theorem render_feed_spec :
    (∀ s : MiniVenmo,
      render_feed s = feedOfLogs (s.users.map User.activity_log).flatten)
    ∧ (∀ s : MiniVenmo, (render_feed s).Nodup)
    ∧ (∀ (s : MiniVenmo) (e : String),
        e ∈ render_feed s ↔ e ∈ (s.users.map User.activity_log).flatten)
    ∧ (∀ (s : MiniVenmo) (e : String),
        e ∈ (s.users.map User.activity_log).flatten →
          (render_feed s).count e = 1) := by
  have hfl : ∀ s : MiniVenmo,
      render_feed s = feedOfLogs (s.users.map User.activity_log).flatten :=
    fun s => feed_foldl_flatten s.users []
  have hnd : ∀ s : MiniVenmo, (render_feed s).Nodup := fun s => by
    rw [hfl s]
    exact feed_foldl_nodup _ _ List.nodup_nil
  have hmem : ∀ (s : MiniVenmo) (e : String),
      e ∈ render_feed s ↔ e ∈ (s.users.map User.activity_log).flatten :=
    fun s e => by
      rw [hfl s]
      unfold feedOfLogs
      rw [feed_foldl_mem]
      simp
  exact ⟨hfl, hnd, hmem, fun s e he =>
    List.count_eq_one_of_mem (hnd s) ((hmem s e).mpr he)⟩

/-- Helper: setting an entry whose friend list matches the old one leaves
every read friend list unchanged. -/
theorem friends_eq_of_set (l : List User) (i : Nat) (u : User)
    (hf : u.friends = (l.getD i default).friends) (k : Nat) :
    ((l.set i u).getD k default).friends = (l.getD k default).friends := by
  by_cases hk : k = i
  · subst hk
    by_cases hlt : k < l.length
    · rw [getD_set_self _ _ _ _ hlt, hf]
    · rw [getD_of_le _ _ _ (by rw [List.length_set]; exact Nat.le_of_not_lt hlt),
        getD_of_le _ _ _ (Nat.le_of_not_lt hlt)]
  · rw [getD_set_ne _ _ _ _ _ hk]

/-- Helper: `pay` never changes the number of users or any friend list. -/
theorem pay_preserves_friends (s : MiniVenmo) (i j : Nat) (m : ℚ) (d : String) :
    (pay s i j m d).2.users.length = s.users.length
    ∧ ∀ k, ((pay s i j m d).2.user k).friends = (s.user k).friends := by
  by_cases h1 : j = i
  · simp [pay, h1]
  by_cases h2 : m ≤ 0
  · simp [pay, h1, h2]
  by_cases h3 : (s.user i).balance ≥ m
  · refine ⟨by simp [pay, h1, h2, h3], fun k => ?_⟩
    simp only [pay, if_neg h1, if_neg h2, if_pos h3]
    simp only [MiniVenmo.user]
    refine (friends_eq_of_set _ _ _ ?_ k).trans (friends_eq_of_set _ _ _ ?_ k)
    · exact (friends_eq_of_set _ _ _ (by rfl) j).symm
    · rfl
  · cases hcc : (s.user i).credit_card with
    | none => simp [pay, h1, h2, h3, hcc]
    | some c =>
      by_cases h4 : (s.card c).balance ≥ m
      · refine ⟨by simp [pay, h1, h2, h3, hcc, h4], fun k => ?_⟩
        simp only [pay, if_neg h1, if_neg h2, if_neg h3, hcc, if_pos h4]
        simp only [MiniVenmo.user]
        refine (friends_eq_of_set _ _ _ ?_ k).trans (friends_eq_of_set _ _ _ ?_ k)
        · exact (friends_eq_of_set _ _ _ (by rfl) j).symm
        · rfl
      · simp [pay, h1, h2, h3, hcc, h4]

/-- Helper: `assign_credit_card` never changes the number of users or any
friend list. -/
theorem assign_preserves_friends (s : MiniVenmo) (i c : Nat) :
    (assign_credit_card s i c).users.length = s.users.length
    ∧ ∀ k, ((assign_credit_card s i c).user k).friends = (s.user k).friends := by
  refine ⟨by simp [assign_credit_card], fun k => ?_⟩
  simp only [assign_credit_card, MiniVenmo.user]
  exact friends_eq_of_set _ _ _ (by rfl) k

/-- Helper: `create_user` appends one user; old friend lists are unchanged
and every index at or beyond the old length reads an empty friend list. -/
theorem create_user_chars (s : MiniVenmo) (n : String) (b : ℚ) :
    (create_user s n b).2.users.length = s.users.length + 1
    ∧ ∀ k, ((create_user s n b).2.user k).friends =
        if k < s.users.length then (s.user k).friends else [] := by
  refine ⟨by simp [create_user], fun k => ?_⟩
  by_cases hk : k < s.users.length
  · simp only [create_user, MiniVenmo.user]
    rw [getD_append_lt _ _ _ _ hk]
    simp [hk]
  · by_cases hk2 : k = s.users.length
    · subst hk2
      simp only [create_user, MiniVenmo.user]
      rw [getD_append_len]
      simp [hk]
    · have hge : s.users.length + 1 ≤ k := by omega
      simp only [create_user, MiniVenmo.user]
      rw [getD_of_le _ _ _ (by simpa using hge)]
      rw [if_neg hk]
      exact rfl

/-- Helper: a successful `add_friend` keeps the user count, appends `j` to
`i`'s friend list and `i` to `j`'s, and leaves all other friend lists
unchanged. -/
theorem add_friend_success_chars (s : MiniVenmo) (i j : Nat)
    (hi : i < s.users.length) (hj : j < s.users.length)
    (h1 : ¬ (j = i)) (h2 : j ∉ (s.user i).friends) :
    (add_friend s i j).2.users.length = s.users.length
    ∧ ((add_friend s i j).2.user i).friends = (s.user i).friends ++ [j]
    ∧ ((add_friend s i j).2.user j).friends = (s.user j).friends ++ [i]
    ∧ ∀ k, k ≠ i → k ≠ j →
        ((add_friend s i j).2.user k).friends = (s.user k).friends := by
  have hij : i ≠ j := fun h => h1 h.symm
  have hgi : ∀ x y : User, ((s.users.set i x).set j y).getD i default = x :=
    fun x y => by rw [getD_set_ne _ j i _ _ hij, getD_set_self _ _ _ _ hi]
  have hgj : ∀ x y : User, ((s.users.set i x).set j y).getD j default = y :=
    fun x y => getD_set_self _ _ _ _ (by rw [List.length_set]; exact hj)
  simp only [MiniVenmo.user] at h2
  refine ⟨?_, ?_, ?_, fun k hki hkj => ?_⟩
  · simp only [add_friend, MiniVenmo.user]
    rw [if_neg h1, if_neg h2]
    show ((s.users.set i _).set j _).length = _
    rw [List.length_set, List.length_set]
  · simp only [add_friend, MiniVenmo.user]
    rw [if_neg h1, if_neg h2]
    show (((s.users.set i _).set j _).getD i default).friends = _
    rw [hgi]
  · simp only [add_friend, MiniVenmo.user]
    rw [if_neg h1, if_neg h2]
    show (((s.users.set i _).set j _).getD j default).friends = _
    rw [hgj]
  · simp only [add_friend, MiniVenmo.user]
    rw [if_neg h1, if_neg h2]
    show (((s.users.set i _).set j _).getD k default).friends = _
    rw [getD_set_ne _ _ _ _ _ hkj, getD_set_ne _ _ _ _ _ hki]

/-- Helper: states with identical user count and friend lists satisfy
`FriendsOk` together. -/
theorem friendsOk_of_eq (s s' : MiniVenmo)
    (hlen : s'.users.length = s.users.length)
    (hfr : ∀ k, (s'.user k).friends = (s.user k).friends)
    (h : FriendsOk s) : FriendsOk s' := by
  obtain ⟨hb, hirr, hsym, hnd⟩ := h
  refine ⟨fun i k hk => ?_, fun i => ?_, fun i j => ?_, fun i => ?_⟩
  · rw [hlen]
    exact hb i k (by rw [hfr i] at hk; exact hk)
  · rw [hfr i]
    exact hirr i
  · rw [hfr i, hfr j]
    exact hsym i j
  · rw [hfr i]
    exact hnd i

/-- C7: in every state reachable from a fresh ledger by the public
operations, the friends relation is bounded by the registry, irreflexive
(no self-friendship), symmetric, and free of duplicates. -/
theorem friends_invariant (s : MiniVenmo) (h : Reachable s) : FriendsOk s := by
  induction h with
  | init =>
    have hu : ∀ i : Nat, MiniVenmo.user ⟨[], []⟩ i = default :=
      fun i => getD_of_le _ _ _ (Nat.zero_le i)
    refine ⟨fun a k hk => ?_, fun a => ?_, fun a b => ?_, fun a => ?_⟩
    · rw [hu a] at hk
      exact absurd hk (List.not_mem_nil k)
    · rw [hu a]
      exact List.not_mem_nil a
    · rw [hu a, hu b]
      exact iff_of_false (List.not_mem_nil b) (List.not_mem_nil a)
    · rw [hu a]
      exact List.nodup_nil
  | create s name balance hs ih =>
    obtain ⟨hlen, hfr⟩ := create_user_chars s name balance
    obtain ⟨hb, hirr, hsym, hnd⟩ := ih
    refine ⟨fun a k hk => ?_, fun a => ?_, fun a b => ?_, fun a => ?_⟩
    · rw [hfr a] at hk
      rw [hlen]
      by_cases ha : a < s.users.length
      · rw [if_pos ha] at hk
        exact Nat.lt_succ_of_lt (hb a k hk)
      · rw [if_neg ha] at hk
        exact absurd hk (List.not_mem_nil k)
    · rw [hfr a]
      by_cases ha : a < s.users.length
      · rw [if_pos ha]
        exact hirr a
      · rw [if_neg ha]
        exact List.not_mem_nil a
    · rw [hfr a, hfr b]
      by_cases ha : a < s.users.length <;> by_cases hb2 : b < s.users.length
      · rw [if_pos ha, if_pos hb2]
        exact hsym a b
      · rw [if_pos ha, if_neg hb2]
        exact iff_of_false (fun hmem => hb2 (hb a b hmem)) (List.not_mem_nil a)
      · rw [if_neg ha, if_pos hb2]
        exact iff_of_false (List.not_mem_nil b) (fun hmem => ha (hb b a hmem))
      · rw [if_neg ha, if_neg hb2]
        exact iff_of_false (List.not_mem_nil b) (List.not_mem_nil a)
    · rw [hfr a]
      by_cases ha : a < s.users.length
      · rw [if_pos ha]
        exact hnd a
      · rw [if_neg ha]
        exact List.nodup_nil
  | newCard s balance hs ih =>
    exact friendsOk_of_eq s _ rfl (fun k => rfl) ih
  | assign s i c hs hi hc ih =>
    obtain ⟨hlen, hfr⟩ := assign_preserves_friends s i c
    exact friendsOk_of_eq s _ hlen hfr ih
  | payment s i j amount d hs hi hj ih =>
    obtain ⟨hlen, hfr⟩ := pay_preserves_friends s i j amount d
    exact friendsOk_of_eq s _ hlen hfr ih
  | friend s i j hs hi hj ih =>
    by_cases h1 : j = i
    · have heq : (add_friend s i j).2 = s := by simp [add_friend, h1]
      rw [heq]
      exact ih
    by_cases h2 : j ∈ (s.user i).friends
    · have heq : (add_friend s i j).2 = s := by
        rw [add_friend_fails_of_mem s i j h1 h2]
      rw [heq]
      exact ih
    obtain ⟨hlen, hfi, hfj, hfo⟩ := add_friend_success_chars s i j hi hj h1 h2
    obtain ⟨hb, hirr, hsym, hnd⟩ := ih
    have hij : i ≠ j := fun h => h1 h.symm
    have hinotj : i ∉ (s.user j).friends := fun hmem => h2 ((hsym j i).mp hmem)
    refine ⟨fun a k hk => ?_, fun a => ?_, fun a b => ?_, fun a => ?_⟩
    · rw [hlen]
      by_cases hai : a = i
      · subst hai
        rw [hfi] at hk
        rcases List.mem_append.mp hk with hm | hm
        · exact hb _ k hm
        · rw [List.mem_singleton] at hm
          subst hm
          exact hj
      by_cases haj : a = j
      · subst haj
        rw [hfj] at hk
        rcases List.mem_append.mp hk with hm | hm
        · exact hb _ k hm
        · rw [List.mem_singleton] at hm
          subst hm
          exact hi
      · rw [hfo a hai haj] at hk
        exact hb a k hk
    · by_cases hai : a = i
      · subst hai
        rw [hfi]
        intro hmem
        rcases List.mem_append.mp hmem with hm | hm
        · exact hirr _ hm
        · rw [List.mem_singleton] at hm
          exact hij hm
      by_cases haj : a = j
      · subst haj
        rw [hfj]
        intro hmem
        rcases List.mem_append.mp hmem with hm | hm
        · exact hirr _ hm
        · rw [List.mem_singleton] at hm
          exact h1 hm
      · rw [hfo a hai haj]
        exact hirr a
    · by_cases hai : a = i
      · subst hai
        by_cases hbi : b = a
        · subst hbi
          exact Iff.rfl
        by_cases hbj : b = j
        · subst hbj
          rw [hfi, hfj]
          exact iff_of_true (List.mem_append_right _ (List.mem_singleton_self b))
            (List.mem_append_right _ (List.mem_singleton_self a))
        · rw [hfi, hfo b hbi hbj]
          constructor
          · intro hmem
            rcases List.mem_append.mp hmem with hm | hm
            · exact (hsym _ b).mp hm
            · rw [List.mem_singleton] at hm
              exact absurd hm hbj
          · intro hmem
            exact List.mem_append_left _ ((hsym _ b).mpr hmem)
      by_cases haj : a = j
      · subst haj
        by_cases hbi : b = i
        · subst hbi
          rw [hfj, hfi]
          exact iff_of_true (List.mem_append_right _ (List.mem_singleton_self b))
            (List.mem_append_right _ (List.mem_singleton_self a))
        by_cases hbj : b = a
        · subst hbj
          exact Iff.rfl
        · rw [hfj, hfo b hbi hbj]
          constructor
          · intro hmem
            rcases List.mem_append.mp hmem with hm | hm
            · exact (hsym _ b).mp hm
            · rw [List.mem_singleton] at hm
              exact absurd hm hbi
          · intro hmem
            exact List.mem_append_left _ ((hsym _ b).mpr hmem)
      · by_cases hbi : b = i
        · subst hbi
          rw [hfo a hai haj, hfi]
          constructor
          · intro hmem
            exact List.mem_append_left _ ((hsym a b).mp hmem)
          · intro hmem
            rcases List.mem_append.mp hmem with hm | hm
            · exact (hsym a b).mpr hm
            · rw [List.mem_singleton] at hm
              exact absurd hm haj
        by_cases hbj : b = j
        · subst hbj
          rw [hfo a hai haj, hfj]
          constructor
          · intro hmem
            exact List.mem_append_left _ ((hsym a b).mp hmem)
          · intro hmem
            rcases List.mem_append.mp hmem with hm | hm
            · exact (hsym a b).mpr hm
            · rw [List.mem_singleton] at hm
              exact absurd hm hai
        · rw [hfo a hai haj, hfo b hbi hbj]
          exact hsym a b
    · by_cases hai : a = i
      · subst hai
        rw [hfi, List.nodup_append]
        exact ⟨hnd _, List.nodup_singleton j, by simpa using h2⟩
      by_cases haj : a = j
      · subst haj
        rw [hfj, List.nodup_append]
        exact ⟨hnd _, List.nodup_singleton i, by simpa using hinotj⟩
      · rw [hfo a hai haj]
        exact hnd a

/-- Witness for C7: the invariant holds in the concrete reachable state where
Alice and Bob were created and Alice befriended Bob. -/
theorem friends_invariant_witness : FriendsOk sABfr :=
  friends_invariant sABfr
    (Reachable.friend sAB 0 1
      (Reachable.create _ "Bob" 50 (Reachable.create _ "Alice" 100 Reachable.init))
      (by decide) (by decide))

/-- Witness for C3: a self-payment attempt fails and leaves the state
untouched. -/
theorem pay_failure_iff_witness :
    (pay sAB 0 0 10 "self").1 = false ∧ (pay sAB 0 0 10 "self").2 = sAB :=
  ⟨by decide, (pay_failure_iff sAB 0 0 10 "self").2 (by decide)⟩

/-- Witness for C6: the friendship entry written to Alice's log appears in
the concatenated logs and exactly once in the rendered feed. -/
theorem render_feed_spec_witness :
    "Alice and Bob are now friends" ∈ (sABfr.users.map User.activity_log).flatten
    ∧ (render_feed sABfr).count "Alice and Bob are now friends" = 1 :=
  ⟨by decide, render_feed_spec.2.2.2 sABfr "Alice and Bob are now friends" (by decide)⟩
